import Mathlib

/-!
Verification development for the gusty schematic assembly engine
(src/Repo/gusty: building.py, parsing/__init__.py, parsing/parsers.py).

The embedding below translates the Python source into Lean:
YAML scalar/list/dict values become the inductive `PVal`; Python dicts
become insertion-ordered association lists (`alookup` models `d.get(k)` /
`k in d`, and `assocSet` models `d[k] = v`, which updates an existing key
in place and appends a fresh key at the end, exactly as Python dicts do);
a directory tree on disk becomes `DirTree` and `os.walk` becomes `walk`
(top-down preorder, the order in which `create_schematic` inserts levels);
absolute paths become lists of path segments, so `os.path.dirname` is
`List.dropLast` and `os.path.basename` is `basename`.
Airflow collaborator objects (DAG, TaskGroup, operators) are opaque to the
engine beyond the fields the engine itself reads, and are modelled by
`Structure` and `BuiltTask`.
-/

/-- A YAML-derived value as it appears in gusty spec records.  Spec files
feed the engine scalars, lists of identifiers and lists of
{dag_id: task_id} dicts; those shapes are the constructors here. -/
inductive PVal where
  | str (s : String)
  | bool (b : Bool)
  | int (n : Int)
  | strList (xs : List String)
  | strDict (kvs : List (String × String))
deriving DecidableEq, Repr

/-- A flat spec record: the Python dict produced by `parse` and enriched by
`read_specs`, as an insertion-ordered association list. -/
abbrev Spec := List (String × PVal)

/-- Python dict lookup `m.get(k)` (also used for the membership test
`k in m`): first binding of the key wins, a Python dict never holds two. -/
def alookup {κ α : Type} [DecidableEq κ] : List (κ × α) → κ → Option α
  | [], _ => none
  | e :: rest, k => if e.1 = k then some e.2 else alookup rest k

/-- Python dict assignment `m[k] = v`: replaces the value at an existing
key keeping its position, appends a new binding otherwise. -/
def assocSet {κ α : Type} [DecidableEq κ] : List (κ × α) → κ → α → List (κ × α)
  | [], k, v => [(k, v)]
  | e :: rest, k, v => if e.1 = k then (k, v) :: rest else e :: assocSet rest k v

/-- Python truthiness of a YAML value, used by `read_specs` for the
`suffix_group_id` flag. -/
def truthy : PVal → Bool
  | .str s => !s.isEmpty
  | .bool b => b
  | .int n => n != 0
  | .strList xs => !xs.isEmpty
  | .strDict kvs => !kvs.isEmpty

/-- Best-effort `str()` rendering of a scalar, used where the Python code
interpolates a spec value into a format string.  In the pipeline the only
values reaching this point are strings, because `parse` always rewrites
`task_id` to a string. -/
def pvalFormat : PVal → String
  | .str s => s
  | .bool b => if b then "True" else "False"
  | .int n => toString n
  | .strList _ => ""
  | .strDict _ => ""

/-! ### Character-level string helpers (os.path on flat strings)

These mirror `str.startswith`, `str.endswith`, `str.lower`,
`os.path.basename` and `os.path.splitext` on the flat string paths that
`parse` receives.  They are written by structural recursion on the
character list so that concrete instances reduce inside the kernel. -/

/-- Boolean test that the second character list starts with the first. -/
def listIsPrefix : List Char → List Char → Bool
  | [], _ => true
  | _ :: _, [] => false
  | a :: as, b :: bs => a = b && listIsPrefix as bs

/-- Python `s.startswith(p)`. -/
def strStartsWith (s p : String) : Bool := listIsPrefix p.toList s.toList

/-- Python `s.endswith(p)`. -/
def strEndsWith (s p : String) : Bool := listIsPrefix p.toList.reverse s.toList.reverse

/-- Python `s.lower()`. -/
def strToLower (s : String) : String := String.mk (s.toList.map Char.toLower)

/-- Split a character list at every slash (the model uses `/` as
`os.sep`). -/
def splitSlash : List Char → List (List Char)
  | [] => [[]]
  | c :: cs =>
    let rest := splitSlash cs
    if c = '/' then [] :: rest
    else match rest with
      | r :: rs => (c :: r) :: rs
      | [] => [[c]]

/-- Rejoin path components with slashes; inverse of `splitSlash`. -/
def joinSlash : List (List Char) → List Char
  | [] => []
  | [x] => x
  | x :: xs => x ++ '/' :: joinSlash xs

/-- Python `os.path.basename` on a flat string path. -/
def basenameStr (s : String) : String :=
  String.mk ((splitSlash s.toList).getLastD [])

/-- Python `os.path.splitext` restricted to a single path component:
splits off the extension beginning at the last dot, except that leading
dots of the component never start an extension. -/
def splitExtOfBase (b : String) : String × String :=
  let cs := b.toList
  let lead := (cs.takeWhile (fun c => c = '.')).length
  let rest := cs.drop lead
  let tailNoDot := rest.reverse.takeWhile (fun c => c ≠ '.')
  if tailNoDot.length = rest.length then (b, "")
  else (String.mk (cs.take (cs.length - (tailNoDot.length + 1))),
        String.mk (cs.drop (cs.length - (tailNoDot.length + 1))))

/-- Python `os.path.splitext` on a full path: only the final component can
carry the extension. -/
def splitextStr (s : String) : String × String :=
  let parts := splitSlash s.toList
  let re := splitExtOfBase (String.mk (parts.getLastD []))
  (String.mk (joinSlash (parts.dropLast ++ [re.1.toList])), re.2)

/-! ### Parser registry (gusty/parsing/__init__.py) -/

/-- The concrete parser functions of gusty/parsing/parsers.py, named.  The
model treats the action of each parser on a given file as an oracle (see
`ParserOutcome`), since file decoding is an external collaborator. -/
inductive ParserKind where
  | generic
  | py
  | ipynb
  | sql
deriving DecidableEq, Repr

/-- Embeds `default_parsers` of gusty/parsing/__init__.py: the mapping
from file extension to parser function. -/
def default_parsers : List (String × ParserKind) :=
  [(".yml", .generic), (".yaml", .generic), (".py", .py),
   (".ipynb", .ipynb), (".sql", .sql), (".Rmd", .generic)]

/-- What running one parser function on the file at hand does: return a
dict, return `None` or a non-dict value, or raise an exception.  The
surrounding `parse` handles each of the three. -/
inductive ParserOutcome where
  | ok (d : List (String × PVal))
  | nonDict
  | raises
deriving DecidableEq, Repr

/-- Embeds `parse` of gusty/parsing/__init__.py.  `env` is the oracle
giving each parser function its result on this file, `fexists` models
`os.path.exists(file_path)`.  The loader plumbing (lines 25-26 and 37-40
of the source) only selects how the parser is invoked and is absorbed
into the oracle. -/
def parse (env : ParserKind → ParserOutcome) (file_path : String)
    (fexists : Bool) (parse_dict : List (String × ParserKind)) : Spec :=
  let minimal : Spec :=
    [("task_id", .str (basenameStr (splitextStr file_path).1)),
     ("file_path", .str file_path)]
  if !fexists then minimal
  else
    let pe := splitextStr file_path
    let task_id := basenameStr pe.1
    let parser := (alookup parse_dict (strToLower pe.2)).getD .generic
    match env parser with
    | .raises => minimal
    | .nonDict =>
        assocSet (assocSet [] "task_id" (.str task_id)) "file_path" (.str file_path)
    | .ok d =>
        assocSet (assocSet d "task_id" (.str task_id)) "file_path" (.str file_path)

/-! ### Directory discovery (create_schematic, building.py lines 28-62) -/

/-- A directory on disk: its base name, its plain files, and its
subdirectories. -/
inductive DirTree where
  | mk (name : String) (files : List String) (subdirs : List DirTree)

/-- Base name of the directory. -/
def DirTree.name : DirTree → String
  | .mk n _ _ => n

/-- Subdirectories of the directory. -/
def DirTree.subdirs : DirTree → List DirTree
  | .mk _ _ s => s

mutual

/-- Embeds `os.walk(dag_dir)`: top-down preorder over every directory of
the tree (hidden or not), yielding each directory path with its files.
`pre` is the path of the enclosing directory. -/
def walk (pre : List String) : DirTree → List (List String × List String)
  | .mk name files subdirs => (pre ++ [name], files) :: walkList (pre ++ [name]) subdirs

/-- Walk each tree of a forest in order, concatenating the results. -/
def walkList (pre : List String) : List DirTree → List (List String × List String)
  | [] => []
  | t :: ts => walk pre t ++ walkList pre ts

end

/-- Hidden-name test of building.py: `basename(dir).startswith(("_", "."))`. -/
def hiddenName (s : String) : Bool := strStartsWith s "_" || strStartsWith s "."

/-- Python `os.path.basename` on a segment-list path. -/
def basename (p : List String) : String := p.getLastD ""

mutual

/-- Number of directories in the tree whose own base name is not hidden;
the recursion descends into hidden directories exactly as `os.walk`
does. -/
def nonHiddenWalkCount : DirTree → Nat
  | .mk name _ subdirs => (if hiddenName name then 0 else 1) + nonHiddenWalkCountList subdirs

/-- Sum of `nonHiddenWalkCount` over a forest. -/
def nonHiddenWalkCountList : List DirTree → Nat
  | [] => 0
  | t :: ts => nonHiddenWalkCount t + nonHiddenWalkCountList ts

end

mutual

/-- Modelled from the spec (section 8, first testable property): the
number of non-hidden directories including the root, where a hidden
directory and ALL of its contents, even non-hidden subdirectories nested
inside it, are excluded entirely.  Written for comparison against the
behaviour of `create_schematic`. -/
def visibleCount : DirTree → Nat
  | .mk name _ subdirs => if hiddenName name then 0 else 1 + visibleCountList subdirs

/-- Sum of `visibleCount` over a forest. -/
def visibleCountList : List DirTree → Nat
  | [] => 0
  | t :: ts => visibleCount t + visibleCountList ts

end

/-- Boolean no-duplicates test on a list of names. -/
def nodupBNames : List String → Bool
  | [] => true
  | x :: xs => !(decide (x ∈ xs)) && nodupBNames xs

mutual

/-- Boolean well-formedness of an on-disk tree: in every directory the
subdirectory names are pairwise distinct (true of any real filesystem). -/
def distinctNames : DirTree → Bool
  | .mk _ _ subdirs =>
      nodupBNames (subdirs.map DirTree.name) && distinctNamesList subdirs

/-- Forest version of `distinctNames`. -/
def distinctNamesList : List DirTree → Bool
  | [] => true
  | t :: ts => distinctNames t && distinctNamesList ts

end

/-! ### Level records and the schematic -/

/-- The graph container of a level, as far as the engine inspects it: the
root level holds an Airflow `DAG(name)`; a nested level holds a
`TaskGroup(group_id, prefix_group_id, ...)`.  `build_structure` always
sets `prefix_group_id := true` for a TaskGroup, because the metadata keys
it forwards are exactly those NOT recognised by the TaskGroup constructor,
and `prefix_group_id` is one of the recognised ones, so user metadata can
never override the default. -/
inductive Structure where
  | dag (name : String)
  | taskGroup (group_id : String) (prefix_group_id : Bool)
deriving DecidableEq, Repr

/-- An instantiated Airflow task, as far as the engine inspects it: the
injected `task_id`, `dag` and `task_group` constructor arguments, the
resolved operator (the `module.Class` string `get_operator` settled on),
and the originating spec.  The `inspect.signature` filter over
constructor parameters is host-engine reflection outside the model;
`src` keeps the whole spec the operator was called with. -/
structure BuiltTask where
  task_id : PVal
  operator : String
  dag : Option Structure
  task_group : Option Structure
  src : Spec
deriving DecidableEq, Repr

/-- One level of the schematic, with exactly the fields built by
`create_schematic` (building.py lines 32-59).  The Python key
`"structure"` is spelled `structure_` because `structure` is a Lean
keyword. -/
structure Level where
  name : String
  parent_id : Option (List String)
  structure_ : Option Structure
  spec_paths : List (List String)
  specs : List Spec
  metadata_path : Option (List String)
  metadata : Spec
  tasks : List (PVal × BuiltTask)
  dependencies : Option (List String)
  external_dependencies : List PVal
deriving DecidableEq, Repr

/-- The full schematic: the insertion-ordered dict from level id (absolute
directory path) to level record. -/
abbrev Schematic := List (List String × Level)

/-- The level record `create_schematic` builds for the directory `dir`
with plain files `files`, inside the schematic rooted at `dag_dir`.
Field by field this is the dict literal of building.py lines 34-58. -/
def mkLevel (dag_dir : List String) (parsers : List (String × ParserKind))
    (dir : List String) (files : List String) : Level :=
  { name := basename dir,
    parent_id :=
      if basename dir.dropLast ≠ basename dag_dir.dropLast
      then some dir.dropLast else none,
    structure_ := none,
    spec_paths := files.filterMap (fun file =>
      if (parsers.any (fun pr => strEndsWith file pr.1)) &&
         file ≠ "METADATA.yml" &&
         !(strStartsWith file "_" || strStartsWith file ".")
      then some (dir ++ [file]) else none),
    specs := [],
    metadata_path :=
      if "METADATA.yml" ∈ files then some (dir ++ ["METADATA.yml"]) else none,
    metadata := [],
    tasks := [],
    dependencies :=
      if basename dir.dropLast ≠ basename dag_dir.dropLast
      then some [] else none,
    external_dependencies := [] }

/-- Embeds `create_schematic` (building.py lines 28-62).  The Python
function receives the path `dag_dir` and walks the directory behind it;
the model receives the same data as the parent path plus the on-disk tree
`t`, so `dag_dir = parent ++ [t.name]`.  Directories whose own base name
starts with an underscore or dot are dropped; everything else becomes a
level, in `os.walk` insertion order. -/
def create_schematic (parent : List String) (t : DirTree)
    (parsers : List (String × ParserKind)) : Schematic :=
  (walk parent t).filterMap (fun e =>
    if hiddenName (basename e.1) then none
    else some (e.1, mkLevel (parent ++ [t.name]) parsers e.1 e.2))

/-! ### Structure and task builders (building.py lines 65-198) -/

/-- Embeds `get_level_structure` (building.py lines 65-70):
`schematic[level_id]["structure"]`.  A missing id raises KeyError in
Python; the model returns `none` there. -/
def get_level_structure (level_id : List String) (schematic : Schematic) :
    Option Structure :=
  match alookup schematic level_id with
  | some lvl => lvl.structure_
  | none => none

/-- Embeds `get_top_level_dag` (building.py lines 73-82):
`top_level_id = list(schematic.keys())[-1] if schematic else None`,
then that level's structure.  Note the source takes the LAST key in
insertion order. -/
def get_top_level_dag (schematic : Schematic) : Option Structure :=
  match schematic.getLast? with
  | some e => get_level_structure e.1 schematic
  | none => none

/-- Embeds `build_structure` (building.py lines 151-198): a `DAG(name)`
when `parent_id` is none, otherwise a TaskGroup whose `group_id` is the
level name and whose `prefix_group_id` stays at the default `True` (see
`Structure`).  The remaining constructor keyword plumbing configures the
opaque host objects and has no footprint in the model. -/
def build_structure (_schematic : Schematic) (parent_id : Option (List String))
    (name : String) (_metadata : Spec) : Structure :=
  match parent_id with
  | none => .dag name
  | some _ => .taskGroup name true

/-- Embeds `GustyBuilder.create_structure` (building.py lines 355-369):
build the structure for the level and store it back. -/
def create_structure (schematic : Schematic) (lid : List String) : Schematic :=
  match alookup schematic lid with
  | none => schematic
  | some lvl =>
      let s := build_structure schematic lvl.parent_id lvl.name lvl.metadata
      assocSet schematic lid { lvl with structure_ := some s }

/-! ### Operator resolution (gusty/importing.py lines 15-112)

The string analysis of an operator reference is pure and embedded
directly; whether `importlib.import_module` then finds the module and
`getattr` finds the class is a property of the installed Python
environment, represented by the oracle argument `env : module → class →
Bool`.  The source retries a failed import once with
`inflection.underscore(module_name)`; since which module spellings load
is entirely environmental, the oracle answers for the whole attempt
(primary or underscored spelling) at once.  `module_dict` is the
module-level table of local operator modules computed from the
`operators` directory at import time (importing.py lines 57-69), again
environment state passed in. -/

/-- Python `s.split(".")` on a character list. -/
def splitDotChars : List Char → List (List Char)
  | [] => [[]]
  | c :: cs =>
    let rest := splitDotChars cs
    if c = '.' then [] :: rest
    else match rest with
      | r :: rs => (c :: r) :: rs
      | [] => [[c]]

/-- Rejoin components with dots: Python `".".join(parts)`. -/
def joinDotChars : List (List Char) → List Char
  | [] => []
  | [x] => x
  | x :: xs => x ++ '.' :: joinDotChars xs

/-- Embeds `get_operator_location` (importing.py lines 15-25): the first
dot-separated part, or `None` for a falsy operator string. -/
def get_operator_location (operator_string : String) : Option String :=
  if operator_string.isEmpty then none
  else some (String.mk ((splitDotChars operator_string.toList).headD []))

/-- Embeds `get_operator_name` (importing.py lines 28-38): the last
dot-separated part, or `None` for a falsy operator string. -/
def get_operator_name (operator_string : String) : Option String :=
  if operator_string.isEmpty then none
  else some (String.mk ((splitDotChars operator_string.toList).getLastD []))

/-- Embeds `get_operator_module` (importing.py lines 41-52): everything
before the last dot, or `None` when the string has no dot at all (or is
falsy). -/
def get_operator_module (operator_string : String) : Option String :=
  if operator_string.isEmpty then none
  else
    let parts := splitDotChars operator_string.toList
    if parts.length > 1 then some (String.mk (joinDotChars parts.dropLast)) else none

/-- Embeds `get_operator` (importing.py lines 72-112).  A falsy operator
string falls back to the dummy operator; a string without both a module
part and a class part raises `ImportError` (rendered `none`); a `local`
location found in `module_dict` is imported from its recorded path
(failure raises, with no fallthrough); otherwise the module is imported
normally (with the underscored retry folded into the oracle), and any
remaining failure raises.  Success returns the resolved
`module.Class`. -/
def get_operator (env : String → String → Bool)
    (module_dict : List (String × String)) (operator_string : String) :
    Option String :=
  let op := if operator_string.isEmpty
            then "airflow.operators.dummy.DummyOperator" else operator_string
  match get_operator_module op, get_operator_name op with
  | some module_name, some class_name =>
      if module_name.isEmpty || class_name.isEmpty then none
      else
        match (if get_operator_location op = some "local"
               then alookup module_dict module_name else none) with
        | some target =>
            if env target class_name
            then some (target ++ "." ++ class_name) else none
        | none =>
            if env module_name class_name
            then some (module_name ++ "." ++ class_name) else none
  | _, _ => none

/-- A concrete import environment for witnesses and counterexamples: an
installation in which exactly the default dummy operator module provides
its class. -/
def envAirflow : String → String → Bool :=
  fun m c => decide (m = "airflow.operators.dummy" ∧ c = "DummyOperator")

/-- Embeds `build_task` (building.py lines 124-148): resolve the
operator named by the spec (defaulting to the dummy operator string) via
`get_operator` — an unresolvable operator raises `ImportError`, rendered
`none`, and a non-string operator value makes the source's
`get_operator_module` return `None` with the same `ImportError` result —
then inject `task_id` (defaulting to the fixed literal), `dag` (via
`get_top_level_dag`) and, when the level structure is a TaskGroup, the
`task_group` argument; calling the operator yields the `BuiltTask`.
A falsy non-string operator value is replaced by the default inside
`get_operator` (its `if not operator_string` guard), while a truthy
non-string fails its `isinstance` checks and raises. -/
def build_task (env : String → String → Bool)
    (module_dict : List (String × String)) (spec : Spec)
    (level_id : List String) (schematic : Schematic) : Option BuiltTask :=
  let operator_val :=
    (alookup spec "operator").getD (.str "airflow.operators.dummy.DummyOperator")
  let resolved : Option String :=
    match operator_val with
    | .str s => get_operator env module_dict s
    | v => if truthy v then none else get_operator env module_dict ""
  match resolved with
  | some op =>
      some { task_id := (alookup spec "task_id").getD (.str "unnamed_task"),
             operator := op,
             dag := get_top_level_dag schematic,
             task_group :=
               match get_level_structure level_id schematic with
               | some (.taskGroup g p) => some (.taskGroup g p)
               | _ => none,
             src := spec }
  | none => none

/-! ### Spec materialisation (read_specs, building.py lines 371-405) -/

/-- The metadata-defaulting loop of `read_specs` (lines 383-385): every
metadata key absent from the spec and outside the four reserved names is
copied into the spec. -/
def applyMetaDefaults (spec : Spec) (level_metadata : Spec) : Spec :=
  level_metadata.foldl (fun sp kv =>
    if (alookup sp kv.1).isNone &&
       !(kv.1 = "dependencies" || kv.1 = "external_dependencies" ||
         kv.1 = "suffix_group_id" || kv.1 = "prefix_group_id")
    then assocSet sp kv.1 kv.2 else sp) spec

/-- One renaming step of `read_specs`:
`level_spec["task_id"] = fmt.format(...)` reads the current id and writes
the rewritten one; reading a missing key raises KeyError in Python, which
the model renders as `none`. -/
def rewriteId (f : String → String) (sp : Spec) : Option Spec :=
  (alookup sp "task_id").map (fun v => assocSet sp "task_id" (.str (f (pvalFormat v))))

/-- Apply `rewriteId` to every spec, failing if any spec lacks an id. -/
def rewriteIds (f : String → String) : List Spec → Option (List Spec)
  | [] => some []
  | sp :: sps =>
      match rewriteId f sp, rewriteIds f sps with
      | some sp2, some sps2 => some (sp2 :: sps2)
      | _, _ => none

/-- Embeds `GustyBuilder.read_specs` (building.py lines 371-405) for one
level, with the inputs the method reads from the schematic passed
explicitly: `parseF` is `parse` applied to a spec path (re-parsing the
original file on every call), then metadata defaults are applied, then,
when the level structure is a TaskGroup, the task id is rewritten once:
prefixing rewrites `t` to `t_s` for level name `s`
(source: `"{y}_{x}".format(x=level_name, y=level_spec["task_id"])`),
suffixing rewrites `t` to `s_t`. -/
def read_specs (parseF : String → Spec) (spec_paths : List String)
    (level_metadata : Spec) (level_structure : Option Structure)
    (level_name : String) : Option (List Spec) :=
  let level_specs := spec_paths.map (fun p => applyMetaDefaults (parseF p) level_metadata)
  let add_suffix := truthy ((alookup level_metadata "suffix_group_id").getD (.bool false))
  match level_structure with
  | some (.taskGroup _ pgi) =>
      if pgi && !add_suffix then
        rewriteIds (fun orig => orig ++ "_" ++ level_name) level_specs
      else if add_suffix then
        rewriteIds (fun orig => level_name ++ "_" ++ orig) level_specs
      else some level_specs
  | _ => some level_specs

/-! ### Task materialisation (create_tasks, building.py lines 407-420) -/

/-- The spec loop of `create_tasks`: build each task in order, storing
it under `spec.get("task_id", "unnamed_task")` in the per-level dict and
the global registry; the first `build_task` failure (an unresolvable
operator) raises out of the whole method, rendered `none` — the build is
aborted, so the writes of earlier iterations are never consumed. -/
def create_tasks_loop (env : String → String → Bool)
    (module_dict : List (String × String)) (schematic : Schematic)
    (lid : List String) :
    List Spec → List (PVal × BuiltTask) × List (PVal × BuiltTask) →
      Option (List (PVal × BuiltTask) × List (PVal × BuiltTask))
  | [], acc => some acc
  | spec :: rest, acc =>
      match build_task env module_dict spec lid schematic with
      | none => none
      | some task =>
          let task_id := (alookup spec "task_id").getD (.str "unnamed_task")
          create_tasks_loop env module_dict schematic lid rest
            (assocSet acc.1 task_id task, assocSet acc.2 task_id task)

/-- Embeds `GustyBuilder.create_tasks` (building.py lines 407-420) for
one level: build a task per spec, store it in a fresh per-level dict and
in the running global registry `all_tasks`.  Both stores are plain dict
assignments: an existing key is silently overwritten, and no duplicate
check of any kind appears in the source; the only failing path in the
engine's own code is the `ImportError` of operator resolution inside
`build_task` (the host operator constructor invoked with the filtered
arguments is an external collaborator outside the model). -/
def create_tasks (env : String → String → Bool)
    (module_dict : List (String × String)) (schematic : Schematic)
    (lid : List String) (all_tasks : List (PVal × BuiltTask)) :
    Option (Schematic × List (PVal × BuiltTask)) :=
  match alookup schematic lid with
  | none => none
  | some lvl =>
      match create_tasks_loop env module_dict schematic lid lvl.specs
          (([] : List (PVal × BuiltTask)), all_tasks) with
      | none => none
      | some res =>
          some (assocSet schematic lid { lvl with tasks := res.1 }, res.2)

/-! ### Dependency wiring (building.py lines 422-481) -/

/-- The `dependencies` list of a spec: `spec.get("dependencies", [])`.
Spec files declare this as a YAML list of identifiers; a dict value would
be iterated by its keys in Python. -/
def specDeps (spec : Spec) : List String :=
  match alookup spec "dependencies" with
  | some (.strList l) => l
  | some (.strDict kvs) => kvs.map Prod.fst
  | _ => []

/-- The double loop of `create_task_dependencies` (building.py lines
441-449): for each spec whose `task_id` is a key of the level task dict,
for each declared dependency present in the global registry, record the
precedes-edge `(dependency id, task id)`; everything else is skipped
without error. -/
def wireCore (level_specs : List Spec) (level_tasks : List (PVal × BuiltTask))
    (all_tasks : List (PVal × BuiltTask)) (edges : List (PVal × PVal)) :
    List (PVal × PVal) :=
  level_specs.foldl (fun es spec =>
    match alookup spec "task_id" with
    | some task_id =>
        if (alookup level_tasks task_id).isSome then
          (specDeps spec).foldl (fun es2 dep =>
            if (alookup all_tasks (.str dep)).isSome
            then es2 ++ [(.str dep, task_id)] else es2) es
        else es
    | none => es) edges

/-- Embeds `GustyBuilder.create_task_dependencies` (building.py lines
432-449), reading the level record from the schematic and running
`wireCore` over its specs and tasks. -/
def create_task_dependencies (schematic : Schematic) (lid : List String)
    (all_tasks : List (PVal × BuiltTask)) (edges : List (PVal × PVal)) :
    Option (List (PVal × PVal)) :=
  (alookup schematic lid).map (fun lvl => wireCore lvl.specs lvl.tasks all_tasks edges)

/-- The mutable wiring state of a `GustyBuilder`: the global task
registry, the registry of wait placeholders created for external
dependencies, and the precedes-edges handed to the host engine. -/
structure WiringState where
  all_tasks : List (PVal × BuiltTask)
  wait_for_tasks : List (String × BuiltTask)
  edges : List (PVal × PVal)
deriving DecidableEq, Repr

/-- Embeds `GustyBuilder.create_task_external_dependencies` (building.py
lines 451-457).  The method body in the source is the single statement
`pass`: it reads nothing and changes nothing, so the model is the
identity on the wiring state. -/
def create_task_external_dependencies (_schematic : Schematic)
    (_lid : List String) (st : WiringState) : WiringState := st

/-- Embeds `GustyBuilder.create_level_external_dependencies` (building.py
lines 459-463).  The body is `pass`; identity on the wiring state. -/
def create_level_external_dependencies (_schematic : Schematic)
    (_lid : List String) (st : WiringState) : WiringState := st

/-- Embeds `GustyBuilder.create_level_dependencies` (building.py lines
422-430).  The body is `pass`; identity on the wiring state. -/
def create_level_dependencies (_schematic : Schematic)
    (_lid : List String) (st : WiringState) : WiringState := st

/-- Embeds `GustyBuilder.create_root_dependencies` (building.py lines
465-478).  The method reads the level metadata, the `root_tasks` entry,
the parent id and the external dependency list, and then, on the root
level, binds the local `level_latest_only = False` and falls off the end:
no gate task is constructed and no edge is added, whatever the metadata
says.  A missing level id would raise KeyError, rendered as `none`. -/
def create_root_dependencies (schematic : Schematic) (lid : List String)
    (st : WiringState) : Option WiringState :=
  match alookup schematic lid with
  | none => none
  | some lvl =>
      let _level_metadata := lvl.metadata
      let _level_root_tasks := alookup lvl.metadata "root_tasks"
      let _level_parent_id := lvl.parent_id
      let _level_external_dependencies := lvl.external_dependencies
      if lvl.parent_id = none then
        some st
      else
        some st

/-! ## Shared lemmas about the dict model -/

/-- Looking up the key just assigned yields the assigned value. -/
theorem alookup_assocSet_self {κ α : Type} [DecidableEq κ]
    (m : List (κ × α)) (k : κ) (v : α) : alookup (assocSet m k v) k = some v := by
  induction m with
  | nil => simp [assocSet, alookup]
  | cons e rest ih =>
      by_cases h : e.1 = k
      · simp [assocSet, h, alookup]
      · simp [assocSet, h, alookup, ih]

/-- Assigning one key leaves every other key unchanged. -/
theorem alookup_assocSet_ne {κ α : Type} [DecidableEq κ]
    (m : List (κ × α)) (k k2 : κ) (v : α) (h : k ≠ k2) :
    alookup (assocSet m k v) k2 = alookup m k2 := by
  induction m with
  | nil => simp [assocSet, alookup, h]
  | cons e rest ih =>
      by_cases he : e.1 = k
      · simp [assocSet, he, alookup, h]
      · simp [assocSet, he, alookup, ih]

/-! ## C8 and C10: the spec loader -/

/-- The record returned by `parse` always carries the task id derived
from the base name of the file with its extension stripped. -/
theorem parse_lookup_task_id (env : ParserKind → ParserOutcome)
    (fp : String) (fexists : Bool) (pd : List (String × ParserKind)) :
    alookup (parse env fp fexists pd) "task_id" =
      some (.str (basenameStr (splitextStr fp).1)) := by
  unfold parse
  cases fexists with
  | false => simp [alookup]
  | true =>
      simp only [Bool.not_true, if_neg]
      cases env ((alookup pd (strToLower (splitextStr fp).2)).getD .generic) with
      | raises => simp [alookup]
      | nonDict =>
          simp [alookup_assocSet_ne _ _ _ _ (by decide : "file_path" ≠ "task_id"),
            alookup_assocSet_self]
      | ok d =>
          simp [alookup_assocSet_ne _ _ _ _ (by decide : "file_path" ≠ "task_id"),
            alookup_assocSet_self]

/-- The record returned by `parse` always carries the originating path
under `file_path`. -/
theorem parse_lookup_file_path (env : ParserKind → ParserOutcome)
    (fp : String) (fexists : Bool) (pd : List (String × ParserKind)) :
    alookup (parse env fp fexists pd) "file_path" = some (.str fp) := by
  unfold parse
  cases fexists with
  | false => simp [alookup]
  | true =>
      simp only [Bool.not_true, if_neg]
      cases env ((alookup pd (strToLower (splitextStr fp).2)).getD .generic) with
      | raises => simp [alookup]
      | nonDict => simp [alookup_assocSet_self]
      | ok d => simp [alookup_assocSet_self]

/-- When the selected parser raises, `parse` returns exactly the minimal
two-key record. -/
theorem parse_raises_minimal (env : ParserKind → ParserOutcome)
    (fp : String) (pd : List (String × ParserKind))
    (h : env ((alookup pd (strToLower (splitextStr fp).2)).getD .generic) = .raises) :
    parse env fp true pd =
      [("task_id", .str (basenameStr (splitextStr fp).1)), ("file_path", .str fp)] := by
  unfold parse
  simp [h]

/-- C8: for every file path, `parse` always returns a record (the Lean
embedding is a total function into `Spec`, mirroring that the Python
function returns on every control path) containing `file_path` and a
`task_id` derived from the base name of the file; and whenever the
selected parser raises a decode error, the result is exactly the minimal
record holding only `task_id` and `file_path`, so a malformed file never
propagates an exception out of `parse`. -/
theorem c8_parse_always_map (env : ParserKind → ParserOutcome)
    (fp : String) (fexists : Bool) (pd : List (String × ParserKind)) :
    alookup (parse env fp fexists pd) "task_id" =
        some (.str (basenameStr (splitextStr fp).1)) ∧
    alookup (parse env fp fexists pd) "file_path" = some (.str fp) ∧
    (env ((alookup pd (strToLower (splitextStr fp).2)).getD .generic) = .raises →
      parse env fp true pd =
        [("task_id", .str (basenameStr (splitextStr fp).1)),
         ("file_path", .str fp)]) :=
  ⟨parse_lookup_task_id env fp fexists pd, parse_lookup_file_path env fp fexists pd,
   fun h => parse_raises_minimal env fp pd h⟩

/-- C8 witness: a raising parser on a concrete path yields the concrete
minimal record. -/
theorem c8_parse_always_map_witness :
    parse (fun _ => .raises) "jobs/clean.yml" true default_parsers =
      [("task_id", .str "clean"), ("file_path", .str "jobs/clean.yml")] :=
  (c8_parse_always_map (fun _ => .raises) "jobs/clean.yml" true default_parsers).2.2 rfl

/-- C10: when the lowercased extension of the path is not a key of the
parser mapping, `parse` still succeeds: it behaves exactly as with an
empty parser mapping (whose lookup always falls back to the generic
whole-file YAML parser), and the returned record still contains `task_id`
and `file_path`. -/
theorem c10_unknown_extension_fallback (env : ParserKind → ParserOutcome)
    (fp : String) (pd : List (String × ParserKind))
    (h : alookup pd (strToLower (splitextStr fp).2) = none) :
    parse env fp true pd = parse env fp true [] ∧
    (alookup (parse env fp true pd) "task_id").isSome = true ∧
    (alookup (parse env fp true pd) "file_path").isSome = true := by
  refine ⟨?_, ?_, ?_⟩
  · unfold parse
    simp [h, alookup]
  · simp [parse_lookup_task_id]
  · simp [parse_lookup_file_path]

/-- C10 witness: the registry stores the key `.Rmd` with a capital R, so
a concrete `.Rmd` path lowercases to an unknown extension and falls back
to the generic parser without failing. -/
theorem c10_unknown_extension_fallback_witness :
    alookup default_parsers (strToLower (splitextStr "m/report.Rmd").2) = none ∧
    parse (fun _ => .ok [("operator", .str "x")]) "m/report.Rmd" true default_parsers =
      parse (fun _ => .ok [("operator", .str "x")]) "m/report.Rmd" true [] :=
  ⟨by decide,
   (c10_unknown_extension_fallback (fun _ => .ok [("operator", .str "x")])
     "m/report.Rmd" default_parsers (by decide)).1⟩

/-! ## C1 and C2: the external dependency wirer and the root finisher

In the source both passes are inert: the bodies of
`create_task_external_dependencies` and `create_level_external_dependencies`
are the single statement `pass` (building.py lines 451-463), and
`create_root_dependencies` (lines 465-478) only reads metadata and binds a
dead local before returning.  The concrete builder states below realise
the scenarios named by the claims, and the theorems evaluate the code on
them. -/

/-- A spec that declares one external dependency
`external_dependencies: [{other_graph: some_task}]`. -/
def specC1 : Spec :=
  [("task_id", .str "b"), ("file_path", .str "/h/dag/b.yml"),
   ("external_dependencies", .strDict [("other_graph", "some_task")])]

/-- The task built for `specC1` at the root of a one-level schematic. -/
def taskC1 : BuiltTask :=
  { task_id := .str "b", operator := "airflow.operators.dummy.DummyOperator",
    dag := some (.dag "dag"), task_group := none, src := specC1 }

/-- A one-level schematic whose root holds `specC1` and its task. -/
def schC1 : Schematic :=
  [(["h", "dag"],
    { name := "dag", parent_id := none, structure_ := some (.dag "dag"),
      spec_paths := [["h", "dag", "b.yml"]], specs := [specC1],
      metadata_path := none, metadata := [], tasks := [(.str "b", taskC1)],
      dependencies := none, external_dependencies := [] })]

/-- The wiring state after task materialisation for `schC1`: the task is
registered, no wait placeholder exists, no edge exists. -/
def stC1 : WiringState :=
  { all_tasks := [(.str "b", taskC1)], wait_for_tasks := [], edges := [] }

/-- C1: the claim asserts the external dependency wiring pass creates
exactly one wait placeholder per distinct external reference and wires it
upstream.  Evaluating the code at the claimed scenario (a spec declaring
`external_dependencies: [{other_graph: some_task}]`): both wiring passes
are the identity, so after running them the wait-placeholder registry is
still empty and no edge was created — no placeholder is ever built, let
alone reused. -/
theorem c1_external_wiring_inert :
    (create_task_external_dependencies schC1 ["h", "dag"] stC1).wait_for_tasks = [] ∧
    (create_task_external_dependencies schC1 ["h", "dag"] stC1).edges = [] ∧
    create_level_external_dependencies schC1 ["h", "dag"]
        (create_task_external_dependencies schC1 ["h", "dag"] stC1) = stC1 :=
  ⟨rfl, rfl, rfl⟩

/-- Root-level schematic for the C2 scenario: the root metadata sets
`latest_only: true`, and the builder state holds two independent source
tasks `a`, `b` and a dependent task `c` reached through the edge from
`a`. -/
def schC2 : Schematic :=
  [(["h", "dag"],
    { name := "dag", parent_id := none, structure_ := some (.dag "dag"),
      spec_paths := [], specs := [],
      metadata_path := some ["h", "dag", "METADATA.yml"],
      metadata := [("latest_only", .bool true)], tasks := [],
      dependencies := none, external_dependencies := [] })]

/-- One stand-in task for the C2 state. -/
def mkTaskC2 (n : String) : BuiltTask :=
  { task_id := .str n, operator := "airflow.operators.dummy.DummyOperator",
    dag := some (.dag "dag"), task_group := none,
    src := [("task_id", .str n)] }

/-- Wiring state for C2: tasks `a`, `b`, `c`; `c` depends on `a`. -/
def stC2 : WiringState :=
  { all_tasks := [(.str "a", mkTaskC2 "a"), (.str "b", mkTaskC2 "b"),
                  (.str "c", mkTaskC2 "c")],
    wait_for_tasks := [],
    edges := [(.str "a", .str "c")] }

/-- C2: the claim asserts that with the latest-schedule-only gate enabled
in the root metadata, `create_root_dependencies` constructs a gating task
and wires it upstream of every root-level entry point with no other
upstream edge.  Evaluating the code at that scenario: the root metadata
enables the gate, yet the pass returns the wiring state unchanged — no
gate task is constructed and no edge is added. -/
theorem c2_root_finisher_inert :
    (alookup schC2 ["h", "dag"]).map (fun l => alookup l.metadata "latest_only") =
      some (some (.bool true)) ∧
    create_root_dependencies schC2 ["h", "dag"] stC2 = some stC2 :=
  ⟨rfl, rfl⟩

/-! ## C3: the owning graph injected into every task

`get_top_level_dag` (building.py lines 73-82) indexes
`list(schematic.keys())[-1]`: the LAST level in insertion order.
`create_schematic` inserts levels in `os.walk` top-down order, so the
root directory is always the FIRST key and any subdirectory comes later.
The concrete build below exercises the claimed property on a dag
directory with one subdirectory. -/

/-- The on-disk tree for C3: `home/mydag` containing `a.yml` and a
subdirectory `grp` with `x.yml`. -/
def treeC3 : DirTree := .mk "mydag" ["a.yml"] [.mk "grp" ["x.yml"] []]

/-- The schematic after discovery and structure construction, applied
deepest level first exactly as `GustyBuilder.levels` orders the passes. -/
def schC3 : Schematic :=
  create_structure
    (create_structure (create_schematic ["home"] treeC3 default_parsers)
      ["home", "mydag", "grp"])
    ["home", "mydag"]

/-- A root-level spec of the C3 build. -/
def specC3 : Spec := [("task_id", .str "a"), ("file_path", .str "home/mydag/a.yml")]

/-- C3: the claim asserts the `dag` argument injected by `build_task` via
`get_top_level_dag` is the structure of the unique level whose
`parent_id` is none.  Evaluating the code: in the C3 build the root level
`home/mydag` has `parent_id = none` and structure `DAG "mydag"`, yet
`get_top_level_dag` returns the structure of the last-inserted level —
the TaskGroup of the subdirectory — and `build_task` injects that
TaskGroup, not the root DAG, as the owning graph of a root-level task. -/
theorem c3_top_level_dag_is_last_key :
    (alookup schC3 ["home", "mydag"]).map Level.parent_id = some none ∧
    (alookup schC3 ["home", "mydag"]).map Level.structure_ =
      some (some (.dag "mydag")) ∧
    (alookup schC3 ["home", "mydag", "grp"]).map Level.parent_id =
      some (some ["home", "mydag"]) ∧
    get_top_level_dag schC3 = some (.taskGroup "grp" true) ∧
    (build_task envAirflow [] specC3 ["home", "mydag"] schC3).map BuiltTask.dag =
      some (some (.taskGroup "grp" true)) ∧
    get_top_level_dag schC3 ≠ some (.dag "mydag") := by
  refine ⟨rfl, rfl, rfl, rfl, rfl, ?_⟩
  decide

/-! ## C6: identifier collisions in create_tasks -/

/-- The last element of a list satisfying the predicate, if any; used to
express the last-write-wins behaviour of repeated dict assignment. -/
def lastMatch (p : Spec → Bool) : List Spec → Option Spec
  | [] => none
  | sp :: rest =>
      match lastMatch p rest with
      | some r => some r
      | none => if p sp then some sp else none

/-- The registry key `create_tasks` files a spec under:
`spec.get("task_id", "unnamed_task")`. -/
def specKeyId (sp : Spec) : PVal := (alookup sp "task_id").getD (.str "unnamed_task")

/-- The spec loop of `create_tasks` never fails when every operator
resolves, and then a lookup in the global registry yields the task of the
LAST spec carrying that identifier, falling back to the incoming
registry: dict assignment silently overwrites. -/
theorem create_tasks_loop_lookup (env : String → String → Bool)
    (module_dict : List (String × String)) (schematic : Schematic)
    (lid : List String) (tid : PVal) :
    ∀ (specs : List Spec),
    (∀ sp ∈ specs, (build_task env module_dict sp lid schematic).isSome = true) →
    ∀ (acc1 acc2 : List (PVal × BuiltTask)),
    (create_tasks_loop env module_dict schematic lid specs (acc1, acc2)).map
        (fun r => alookup r.2 tid) =
      some (match lastMatch (fun sp => specKeyId sp = tid) specs with
            | some sp => build_task env module_dict sp lid schematic
            | none => alookup acc2 tid) := by
  intro specs
  induction specs with
  | nil => intro _ acc1 acc2; simp [create_tasks_loop, lastMatch]
  | cons sp rest ih =>
      intro hres acc1 acc2
      obtain ⟨task, htask⟩ := Option.isSome_iff_exists.mp
        (hres sp (List.mem_cons_self sp rest))
      have hstep : create_tasks_loop env module_dict schematic lid
          (sp :: rest) (acc1, acc2) =
          create_tasks_loop env module_dict schematic lid rest
            (assocSet acc1 (specKeyId sp) task,
             assocSet acc2 (specKeyId sp) task) := by
        simp [create_tasks_loop, htask, specKeyId]
      rw [hstep, ih (fun q hq => hres q (List.mem_cons_of_mem sp hq))]
      cases hrest : lastMatch (fun sp => specKeyId sp = tid) rest with
      | some r => simp [lastMatch, hrest]
      | none =>
          by_cases hk : specKeyId sp = tid
          · simp only [lastMatch, hrest, hk]
            rw [← hk, alookup_assocSet_self]
            simp [htask]
          · simp only [lastMatch, hrest, hk]
            rw [alookup_assocSet_ne _ _ _ _ hk]
            simp

/-- First colliding spec for the C6 counterexample: no `operator` key, so
`build_task` resolves the default dummy operator string, which imports
under the concrete environment `envAirflow`; the specs differ only in
their `retries` value. -/
def spec1C6 : Spec := [("task_id", .str "t"), ("retries", .int 1)]

/-- Second colliding spec for the C6 counterexample. -/
def spec2C6 : Spec := [("task_id", .str "t"), ("retries", .int 2)]

/-- One-level schematic holding the two colliding specs. -/
def schC6 : Schematic :=
  [(["h", "d"],
    { name := "d", parent_id := none, structure_ := some (.dag "d"),
      spec_paths := [["h", "d", "one.yml"], ["h", "d", "two.yml"]],
      specs := [spec1C6, spec2C6],
      metadata_path := none, metadata := [], tasks := [],
      dependencies := none, external_dependencies := [] })]

/-- C6 counterexample: two specs at the same level share the final task
identifier `t` and both operators resolve (each omits `operator`, so the
default dummy operator is used, which imports under `envAirflow`).  The
claim predicts a `DuplicateTaskError` at construction time; instead
`create_tasks` completes normally — the engine's own code can fail only
through operator resolution, and no duplicate check exists anywhere — and
the global registry silently maps `t` to the task built from the second
spec, which differs from the first task. -/
theorem c6_collision_counterexample :
    (create_tasks envAirflow [] schC6 ["h", "d"] []).isSome = true ∧
    (create_tasks envAirflow [] schC6 ["h", "d"] []).map
        (fun r => alookup r.2 (.str "t")) =
      some (build_task envAirflow [] spec2C6 ["h", "d"] schC6) ∧
    build_task envAirflow [] spec1C6 ["h", "d"] schC6 ≠
      build_task envAirflow [] spec2C6 ["h", "d"] schC6 := by
  refine ⟨rfl, rfl, ?_⟩
  decide

/-- C6 amended: an identifier collision is never a construction-time
error of the engine.  The only failing path in the engine's own code is
operator resolution (the `ImportError` raised inside `build_task` via
`get_operator`); whenever every spec of the level resolves its operator,
`create_tasks` completes, and afterwards the global registry maps an
identifier to the
task built from the LAST spec at the level carrying that identifier
(silent last-write-wins overwrite), falling back to the incoming registry
entry when no spec at the level carries it. -/
theorem c6_create_tasks_overwrites (env : String → String → Bool)
    (module_dict : List (String × String)) (schematic : Schematic)
    (lid : List String) (lvl : Level) (all0 : List (PVal × BuiltTask))
    (h : alookup schematic lid = some lvl)
    (hres : ∀ sp ∈ lvl.specs,
      (build_task env module_dict sp lid schematic).isSome = true)
    (tid : PVal) :
    (create_tasks env module_dict schematic lid all0).map
        (fun r => alookup r.2 tid) =
      some (match lastMatch (fun sp => specKeyId sp = tid) lvl.specs with
            | some sp => build_task env module_dict sp lid schematic
            | none => alookup all0 tid) := by
  have hct : create_tasks env module_dict schematic lid all0 =
      match create_tasks_loop env module_dict schematic lid lvl.specs
          (([] : List (PVal × BuiltTask)), all0) with
      | none => none
      | some res =>
          some (assocSet schematic lid { lvl with tasks := res.1 }, res.2) := by
    unfold create_tasks
    rw [h]
  rw [hct]
  have hl := create_tasks_loop_lookup env module_dict schematic lid tid
    lvl.specs hres [] all0
  cases hloop : create_tasks_loop env module_dict schematic lid lvl.specs
      ([], all0) with
  | none => rw [hloop] at hl; simp at hl
  | some res =>
      rw [hloop] at hl
      simp only [Option.map_some'] at hl ⊢
      exact hl

/-- C6 witness: the amended theorem applied to the colliding schematic at
an identifier no spec carries, so the lookup falls through to the (empty)
incoming registry. -/
theorem c6_create_tasks_overwrites_witness :
    (create_tasks envAirflow [] schC6 ["h", "d"] []).map
        (fun r => alookup r.2 (.str "q")) = some none :=
  c6_create_tasks_overwrites envAirflow [] schC6 ["h", "d"] _ []
    rfl (by decide) (.str "q")

/-! ## C9: intra-graph dependency wiring -/

/-- Membership in the inner dependency loop of `wireCore`: an edge is in
the result exactly when it was already present or it pairs a declared
dependency that exists in the global registry with the current task. -/
theorem wire_inner_mem (all_tasks : List (PVal × BuiltTask)) (tid : PVal)
    (deps : List String) :
    ∀ (es : List (PVal × PVal)) (x : PVal × PVal),
    (x ∈ deps.foldl (fun es2 dep =>
        if (alookup all_tasks (.str dep)).isSome
        then es2 ++ [(.str dep, tid)] else es2) es) ↔
      x ∈ es ∨ ∃ dep ∈ deps,
        (alookup all_tasks (.str dep)).isSome = true ∧ x = (.str dep, tid) := by
  induction deps with
  | nil => intro es x; simp
  | cons d rest ih =>
      intro es x
      simp only [List.foldl_cons]
      by_cases hd : (alookup all_tasks (.str d)).isSome = true
      · rw [if_pos hd, ih]
        simp only [List.mem_append, List.mem_cons, List.not_mem_nil, or_false]
        constructor
        · rintro ((hx | hx) | ⟨dep, hdep, hsome, hx⟩)
          · exact Or.inl hx
          · exact Or.inr ⟨d, Or.inl rfl, hd, hx⟩
          · exact Or.inr ⟨dep, Or.inr hdep, hsome, hx⟩
        · rintro (hx | ⟨dep, (rfl | hdep), hsome, hx⟩)
          · exact Or.inl (Or.inl hx)
          · exact Or.inl (Or.inr hx)
          · exact Or.inr ⟨dep, hdep, hsome, hx⟩
      · rw [if_neg hd, ih]
        simp only [List.mem_cons]
        constructor
        · rintro (hx | ⟨dep, hdep, hsome, hx⟩)
          · exact Or.inl hx
          · exact Or.inr ⟨dep, Or.inr hdep, hsome, hx⟩
        · rintro (hx | ⟨dep, (rfl | hdep), hsome, hx⟩)
          · exact Or.inl hx
          · exact absurd hsome hd
          · exact Or.inr ⟨dep, hdep, hsome, hx⟩

/-- Membership in `wireCore`: an edge is in the result exactly when it
was already present or some spec at the level names a registered task and
declares a dependency that exists in the global registry. -/
theorem wireCore_mem (level_tasks all_tasks : List (PVal × BuiltTask)) :
    ∀ (level_specs : List Spec) (edges : List (PVal × PVal)) (x : PVal × PVal),
    (x ∈ wireCore level_specs level_tasks all_tasks edges) ↔
      x ∈ edges ∨ ∃ sp ∈ level_specs, ∃ tid,
        alookup sp "task_id" = some tid ∧
        (alookup level_tasks tid).isSome = true ∧
        ∃ dep ∈ specDeps sp,
          (alookup all_tasks (.str dep)).isSome = true ∧ x = (.str dep, tid) := by
  intro level_specs
  induction level_specs with
  | nil => intro edges x; simp [wireCore]
  | cons sp rest ih =>
      intro edges x
      cases hid : alookup sp "task_id" with
      | none =>
          have hstep : wireCore (sp :: rest) level_tasks all_tasks edges =
              wireCore rest level_tasks all_tasks edges := by
            simp [wireCore, hid]
          rw [hstep, ih]
          simp only [List.mem_cons]
          constructor
          · rintro (hx | ⟨s, hs, tid, htid, hrest⟩)
            · exact Or.inl hx
            · exact Or.inr ⟨s, Or.inr hs, tid, htid, hrest⟩
          · rintro (hx | ⟨s, (rfl | hs), tid, htid, hrest⟩)
            · exact Or.inl hx
            · rw [hid] at htid; cases htid
            · exact Or.inr ⟨s, hs, tid, htid, hrest⟩
      | some tid0 =>
          by_cases hlt : (alookup level_tasks tid0).isSome = true
          · have hstep : wireCore (sp :: rest) level_tasks all_tasks edges =
                wireCore rest level_tasks all_tasks
                  ((specDeps sp).foldl (fun es2 dep =>
                     if (alookup all_tasks (.str dep)).isSome
                     then es2 ++ [(.str dep, tid0)] else es2) edges) := by
              simp [wireCore, hid, hlt]
            rw [hstep, ih, wire_inner_mem]
            simp only [List.mem_cons]
            constructor
            · rintro ((hx | ⟨dep, hdep, hsome, hx⟩) | ⟨s, hs, tid, htid, hrest⟩)
              · exact Or.inl hx
              · exact Or.inr ⟨sp, Or.inl rfl, tid0, hid, hlt, dep, hdep, hsome, hx⟩
              · exact Or.inr ⟨s, Or.inr hs, tid, htid, hrest⟩
            · rintro (hx | ⟨s, (rfl | hs), tid, htid, hlt2, dep, hdep, hsome, hx⟩)
              · exact Or.inl (Or.inl hx)
              · rw [hid] at htid
                cases htid
                exact Or.inl (Or.inr ⟨dep, hdep, hsome, hx⟩)
              · exact Or.inr ⟨s, hs, tid, htid, hlt2, dep, hdep, hsome, hx⟩
          · have hstep : wireCore (sp :: rest) level_tasks all_tasks edges =
                wireCore rest level_tasks all_tasks edges := by
              simp [wireCore, hid, hlt]
            rw [hstep, ih]
            simp only [List.mem_cons]
            constructor
            · rintro (hx | ⟨s, hs, tid, htid, hrest⟩)
              · exact Or.inl hx
              · exact Or.inr ⟨s, Or.inr hs, tid, htid, hrest⟩
            · rintro (hx | ⟨s, (rfl | hs), tid, htid, hlt2, hrest⟩)
              · exact Or.inl hx
              · rw [hid] at htid
                cases htid
                exact absurd hlt2 hlt
              · exact Or.inr ⟨s, hs, tid, htid, hlt2, hrest⟩

/-- C9: for a level of the schematic, `create_task_dependencies` returns
(without any possibility of error) the edge set in which, beyond the
pre-existing edges, a precedes-edge from a referenced task to the current
task appears exactly when the spec's `task_id` maps to a constructed task
of the level and the referenced identifier exists in the global registry;
identifiers absent from the registry contribute nothing and never raise. -/
theorem c9_task_dependency_edges (schematic : Schematic) (lid : List String)
    (lvl : Level) (all_tasks : List (PVal × BuiltTask))
    (edges : List (PVal × PVal)) (h : alookup schematic lid = some lvl) :
    create_task_dependencies schematic lid all_tasks edges =
      some (wireCore lvl.specs lvl.tasks all_tasks edges) ∧
    ∀ x : PVal × PVal,
      (x ∈ wireCore lvl.specs lvl.tasks all_tasks edges) ↔
        x ∈ edges ∨ ∃ sp ∈ lvl.specs, ∃ tid,
          alookup sp "task_id" = some tid ∧
          (alookup lvl.tasks tid).isSome = true ∧
          ∃ dep ∈ specDeps sp,
            (alookup all_tasks (.str dep)).isSome = true ∧ x = (.str dep, tid) := by
  constructor
  · unfold create_task_dependencies
    rw [h]
    rfl
  · intro x
    exact wireCore_mem lvl.tasks all_tasks lvl.specs edges x

/-- C9 witness: on `schC1` (one spec `b` with no dependencies) the pass
completes and adds no edge. -/
theorem c9_task_dependency_edges_witness :
    create_task_dependencies schC1 ["h", "dag"] stC1.all_tasks [] =
      some (wireCore [specC1] [(.str "b", taskC1)] stC1.all_tasks []) :=
  (c9_task_dependency_edges schC1 ["h", "dag"] _ stC1.all_tasks [] rfl).1

/-! ## C7: scope prefix/suffix renaming in read_specs -/

/-- The metadata-defaulting loop never touches a key the spec already
has: it only assigns keys whose lookup is `isNone`. -/
theorem applyMetaDefaults_preserves (meta : Spec) (k : String) :
    ∀ (sp : Spec), (alookup sp k).isSome = true →
      alookup (applyMetaDefaults sp meta) k = alookup sp k := by
  induction meta with
  | nil => intro sp _; rfl
  | cons kv rest ih =>
      intro sp hk
      have hstep : applyMetaDefaults sp (kv :: rest) =
          applyMetaDefaults
            (if (alookup sp kv.1).isNone &&
                !(kv.1 = "dependencies" || kv.1 = "external_dependencies" ||
                  kv.1 = "suffix_group_id" || kv.1 = "prefix_group_id")
             then assocSet sp kv.1 kv.2 else sp) rest := rfl
      rw [hstep]
      by_cases hg : ((alookup sp kv.1).isNone &&
          !(kv.1 = "dependencies" || kv.1 = "external_dependencies" ||
            kv.1 = "suffix_group_id" || kv.1 = "prefix_group_id")) = true
      · have hnone : (alookup sp kv.1).isNone = true := by
          have h2 := hg
          simp only [Bool.and_eq_true] at h2
          exact h2.1
        have hne : kv.1 ≠ k := by
          intro he
          rw [he, Option.isNone_iff_eq_none] at hnone
          rw [hnone] at hk
          cases hk
        rw [if_pos hg]
        have hpres : alookup (assocSet sp kv.1 kv.2) k = alookup sp k :=
          alookup_assocSet_ne sp kv.1 k kv.2 hne
        rw [ih (assocSet sp kv.1 kv.2) (by rw [hpres]; exact hk), hpres]
      · rw [if_neg hg]
        exact ih sp hk

/-- Applying `rewriteIds` to loader outputs whose ids are known computes
the rewritten id list in one pass. -/
theorem rewriteIds_ids (f : String → String) :
    ∀ (paths : List String) (F : String → Spec) (origOf : String → String),
    (∀ q ∈ paths, alookup (F q) "task_id" = some (.str (origOf q))) →
    (rewriteIds f (paths.map F)).map
        (fun l => l.map (fun sp => alookup sp "task_id")) =
      some (paths.map (fun q => some (.str (f (origOf q))))) := by
  intro paths
  induction paths with
  | nil => intro F origOf _; simp [rewriteIds]
  | cons q qs ih =>
      intro F origOf h
      have hq : alookup (F q) "task_id" = some (.str (origOf q)) :=
        h q (List.mem_cons_self q qs)
      have hqs := ih F origOf (fun p hp => h p (List.mem_cons_of_mem q hp))
      cases hr : rewriteIds f (qs.map F) with
      | none => rw [hr] at hqs; cases hqs
      | some l =>
          rw [hr] at hqs
          simp only [Option.map_some'] at hqs
          have hhead : rewriteId f (F q) =
              some (assocSet (F q) "task_id" (.str (f (origOf q)))) := by
            simp [rewriteId, hq, pvalFormat]
          simp only [List.map_cons, rewriteIds, hhead, hr, Option.map_some',
            List.map, alookup_assocSet_self]
          rw [Option.some.inj hqs]

/-- C7: for a nested scope named `s` (a TaskGroup structure with the
default `prefix_group_id = true`), materialising the level specs rewrites
each original task id `t` exactly once: under the default prefix
configuration the final id is `t_s`, and under the suffix configuration
(`suffix_group_id` truthy in the level metadata) it is `s_t`.  Because
`read_specs` consumes the loader output afresh (it maps `parse` over the
spec paths and never reads previously stored specs), re-running it for
the same level re-derives the same singly-rewritten ids: the theorem pins
the result of every run to exactly one `_` concatenation, so a
double-rewritten id such as `t_s_s` can never be produced. -/
theorem c7_scope_rename_once (parseF : String → Spec) (paths : List String)
    (meta : Spec) (g level_name : String) (origOf : String → String)
    (h : ∀ q ∈ paths, alookup (parseF q) "task_id" = some (.str (origOf q))) :
    (truthy ((alookup meta "suffix_group_id").getD (.bool false)) = false →
      (read_specs parseF paths meta (some (.taskGroup g true)) level_name).map
          (fun l => l.map (fun sp => alookup sp "task_id")) =
        some (paths.map (fun q => some (.str (origOf q ++ "_" ++ level_name))))) ∧
    (truthy ((alookup meta "suffix_group_id").getD (.bool false)) = true →
      (read_specs parseF paths meta (some (.taskGroup g true)) level_name).map
          (fun l => l.map (fun sp => alookup sp "task_id")) =
        some (paths.map (fun q => some (.str (level_name ++ "_" ++ origOf q))))) := by
  have hF : ∀ q ∈ paths,
      alookup (applyMetaDefaults (parseF q) meta) "task_id" =
        some (.str (origOf q)) := by
    intro q hq
    rw [applyMetaDefaults_preserves meta "task_id" (parseF q) (by rw [h q hq]; rfl)]
    exact h q hq
  constructor
  · intro hsuf
    have : read_specs parseF paths meta (some (.taskGroup g true)) level_name =
        rewriteIds (fun orig => orig ++ "_" ++ level_name)
          (paths.map (fun p => applyMetaDefaults (parseF p) meta)) := by
      simp [read_specs, hsuf]
    rw [this]
    exact rewriteIds_ids _ paths _ origOf hF
  · intro hsuf
    have : read_specs parseF paths meta (some (.taskGroup g true)) level_name =
        rewriteIds (fun orig => level_name ++ "_" ++ orig)
          (paths.map (fun p => applyMetaDefaults (parseF p) meta)) := by
      simp [read_specs, hsuf]
    rw [this]
    exact rewriteIds_ids _ paths _ origOf hF

/-- C7 witness: one spec file with loader id `t` inside a scope named
`grp` materialises, under the default prefix configuration, to the final
id `t_grp` — rewritten exactly once. -/
theorem c7_scope_rename_once_witness :
    (read_specs (fun _ => [("task_id", .str "t"), ("file_path", .str "x")])
        ["grp/x.yml"] [] (some (.taskGroup "grp" true)) "grp").map
        (fun l => l.map (fun sp => alookup sp "task_id")) =
      some [some (.str "t_grp")] :=
  (c7_scope_rename_once (fun _ => [("task_id", .str "t"), ("file_path", .str "x")])
    ["grp/x.yml"] [] "grp" "grp" (fun _ => "t") (by decide)).1 rfl

/-! ## C4: how many levels discovery produces -/

/-- The base name of a walked path is the name of its own directory. -/
theorem basename_concat (l : List String) (a : String) :
    basename (l ++ [a]) = a := by
  simp [basename, List.getLastD_eq_getLast?, List.getLast?_concat]

/-- Length of a keep-or-drop `filterMap` equals the length of the
corresponding `filter`. -/
theorem filterMap_if_length {α β : Type} (cond : α → Bool) (g : α → β) :
    ∀ l : List α,
    (l.filterMap (fun e => if cond e then none else some (g e))).length =
      (l.filter (fun e => !cond e)).length := by
  intro l
  induction l with
  | nil => rfl
  | cons a l ih =>
      by_cases hc : cond a = true
      · simp [List.filterMap_cons, List.filter_cons, hc, ih]
      · simp [List.filterMap_cons, List.filter_cons, hc, ih]

mutual

/-- Counting the non-hidden entries of a walk matches the recursive count
that descends into hidden directories. -/
theorem walk_filter_count (pre : List String) (t : DirTree) :
    ((walk pre t).filter (fun e => !hiddenName (basename e.1))).length =
      nonHiddenWalkCount t := by
  cases t with
  | mk n files subs =>
      rw [show walk pre (.mk n files subs) =
            (pre ++ [n], files) :: walkList (pre ++ [n]) subs from rfl]
      rw [List.filter_cons]
      by_cases hn : hiddenName n = true
      · simp [basename_concat, hn, walkList_filter_count (pre ++ [n]) subs,
          nonHiddenWalkCount]
      · have hn2 : hiddenName n = false := by
          revert hn; cases hiddenName n <;> simp
        simp [basename_concat, hn2, walkList_filter_count (pre ++ [n]) subs,
          nonHiddenWalkCount, Nat.add_comm]

/-- Forest version of `walk_filter_count`. -/
theorem walkList_filter_count (pre : List String) (ts : List DirTree) :
    ((walkList pre ts).filter (fun e => !hiddenName (basename e.1))).length =
      nonHiddenWalkCountList ts := by
  cases ts with
  | nil => rfl
  | cons t ts =>
      rw [show walkList pre (t :: ts) = walk pre t ++ walkList pre ts from rfl]
      rw [List.filter_append, List.length_append,
        walk_filter_count pre t, walkList_filter_count pre ts]
      rfl

end

/-- C4 counterexample: in the tree `dags/_private/viz`, `os.walk`
descends into the hidden directory `_private` and the comprehension
filter only tests each directory's OWN base name, so the non-hidden
grandchild `viz` still becomes a level: the schematic has 2 levels, while
the count demanded by the claim (hidden directories and ALL their
contents excluded) is 1.  The two disagree, refuting the claim. -/
theorem c4_hidden_descent_counterexample :
    (create_schematic ["home"] (.mk "dags" [] [.mk "_private" [] [.mk "viz" [] []]])
        default_parsers).length = 2 ∧
    visibleCount (.mk "dags" [] [.mk "_private" [] [.mk "viz" [] []]]) = 1 ∧
    (create_schematic ["home"] (.mk "dags" [] [.mk "_private" [] [.mk "viz" [] []]])
        default_parsers).length ≠
      visibleCount (.mk "dags" [] [.mk "_private" [] [.mk "viz" [] []]]) := by
  refine ⟨by decide, by decide, by decide⟩

/-- C4 amended: the number of discovered levels equals the number of
directories of the tree (root included) whose OWN base name does not
begin with an underscore or dot.  The walk descends into hidden
directories, so a non-hidden directory nested inside a hidden one is
still discovered; only each hidden directory itself is dropped. -/
theorem c4_level_count (parent : List String) (t : DirTree)
    (parsers : List (String × ParserKind)) :
    (create_schematic parent t parsers).length = nonHiddenWalkCount t := by
  unfold create_schematic
  rw [filterMap_if_length (fun e => hiddenName (basename e.1))
    (fun e => (e.1, mkLevel (parent ++ [t.name]) parsers e.1 e.2)) (walk parent t)]
  exact walk_filter_count parent t

/-! ## C5: parent links and uniqueness of level ids -/

mutual

/-- Every path yielded by `walk pre t` extends the path of the walked
root `pre ++ [t.name]`. -/
theorem walk_path_extends (pre : List String) (t : DirTree) (p fs : List String)
    (h : (p, fs) ∈ walk pre t) : (pre ++ [t.name]) <+: p := by
  cases t with
  | mk n files subs =>
      rw [show walk pre (.mk n files subs) =
            (pre ++ [n], files) :: walkList (pre ++ [n]) subs from rfl] at h
      rcases List.mem_cons.mp h with he | hm
      · rw [show p = (pre ++ [n]) from congrArg Prod.fst he]
        exact List.prefix_refl _
      · obtain ⟨u, _, hu⟩ := walkList_path_extends (pre ++ [n]) subs p fs hm
        show (pre ++ [n]) <+: p
        exact List.IsPrefix.trans (List.prefix_append (pre ++ [n]) [u.name]) hu

/-- Every path yielded by `walkList pre ts` extends `pre ++ [u.name]` for
some tree `u` of the forest. -/
theorem walkList_path_extends (pre : List String) (ts : List DirTree)
    (p fs : List String) (h : (p, fs) ∈ walkList pre ts) :
    ∃ u ∈ ts, (pre ++ [u.name]) <+: p := by
  cases ts with
  | nil => cases h
  | cons t ts =>
      rw [show walkList pre (t :: ts) = walk pre t ++ walkList pre ts from rfl] at h
      rcases List.mem_append.mp h with hl | hr
      · exact ⟨t, List.mem_cons_self t ts, walk_path_extends pre t p fs hl⟩
      · obtain ⟨u, hu, hup⟩ := walkList_path_extends pre ts p fs hr
        exact ⟨u, List.mem_cons_of_mem t hu, hup⟩

end

/-- A path extending `pre ++ [a]` holds `a` at index `pre.length`. -/
theorem prefix_getElem (pre : List String) (a : String) (p : List String)
    (h : (pre ++ [a]) <+: p) : p[pre.length]? = some a := by
  obtain ⟨r, hr⟩ := h
  rw [← hr, List.append_assoc, List.getElem?_append_right (le_refl pre.length)]
  simp

mutual

/-- On a tree with pairwise distinct sibling names, the walked paths are
pairwise distinct. -/
theorem walk_fst_nodup (pre : List String) (t : DirTree)
    (hd : distinctNames t = true) : ((walk pre t).map Prod.fst).Nodup := by
  cases t with
  | mk n files subs =>
      have hparts : nodupBNames (subs.map DirTree.name) = true ∧
          distinctNamesList subs = true := by
        have := hd
        rw [show distinctNames (.mk n files subs) =
              (nodupBNames (subs.map DirTree.name) && distinctNamesList subs)
            from rfl] at this
        simpa [Bool.and_eq_true] using this
      rw [show walk pre (.mk n files subs) =
            (pre ++ [n], files) :: walkList (pre ++ [n]) subs from rfl]
      rw [List.map_cons, List.nodup_cons]
      refine ⟨?_, walkList_fst_nodup (pre ++ [n]) subs hparts.1 hparts.2⟩
      intro hmem
      obtain ⟨e, he, hfst⟩ := List.mem_map.mp hmem
      obtain ⟨u, _, hup⟩ :=
        walkList_path_extends (pre ++ [n]) subs e.1 e.2 (by simpa using he)
      have hlen : (pre ++ [n] ++ [u.name]).length ≤ e.1.length :=
        List.IsPrefix.length_le hup
      rw [hfst] at hlen
      simp at hlen

/-- Forest version of `walk_fst_nodup`: distinct root names keep the
walks of different trees disjoint. -/
theorem walkList_fst_nodup (pre : List String) (ts : List DirTree)
    (hn : nodupBNames (ts.map DirTree.name) = true)
    (hd : distinctNamesList ts = true) :
    ((walkList pre ts).map Prod.fst).Nodup := by
  cases ts with
  | nil => simp [walkList]
  | cons t ts =>
      have hni : t.name ∉ ts.map DirTree.name ∧
          nodupBNames (ts.map DirTree.name) = true := by
        have := hn
        rw [List.map_cons] at this
        rw [show nodupBNames (t.name :: ts.map DirTree.name) =
              (!(decide (t.name ∈ ts.map DirTree.name)) &&
                nodupBNames (ts.map DirTree.name)) from rfl] at this
        rw [Bool.and_eq_true] at this
        exact ⟨by simpa using this.1, this.2⟩
      have hdi : distinctNames t = true ∧ distinctNamesList ts = true := by
        have := hd
        rw [show distinctNamesList (t :: ts) =
              (distinctNames t && distinctNamesList ts) from rfl] at this
        rwa [Bool.and_eq_true] at this
      rw [show walkList pre (t :: ts) = walk pre t ++ walkList pre ts from rfl]
      rw [List.map_append, List.nodup_append]
      refine ⟨walk_fst_nodup pre t hdi.1,
        walkList_fst_nodup pre ts hni.2 hdi.2, ?_⟩
      intro x hxl hxr
      obtain ⟨e, he, hfst⟩ := List.mem_map.mp hxl
      have hpl : (pre ++ [t.name]) <+: x := by
        rw [← hfst]; exact walk_path_extends pre t e.1 e.2 (by simpa using he)
      obtain ⟨f, hf, hffst⟩ := List.mem_map.mp hxr
      obtain ⟨u, hu, hup⟩ :=
        walkList_path_extends pre ts f.1 f.2 (by simpa using hf)
      rw [hffst] at hup
      have h1 := prefix_getElem pre t.name x hpl
      have h2 := prefix_getElem pre u.name x hup
      rw [h1] at h2
      have : t.name = u.name := by injection h2
      exact hni.1 (this ▸ List.mem_map_of_mem DirTree.name hu)

end

/-- The level ids of `create_schematic` form a sublist of the walked
paths. -/
theorem create_schematic_fst_sublist (dag_dir : List String)
    (parsers : List (String × ParserKind)) :
    ∀ (l : List (List String × List String)),
    ((l.filterMap (fun e =>
        if hiddenName (basename e.1) then none
        else some (e.1, mkLevel dag_dir parsers e.1 e.2))).map Prod.fst).Sublist
      (l.map Prod.fst) := by
  intro l
  induction l with
  | nil => simp
  | cons a l ih =>
      by_cases hc : hiddenName (basename a.1) = true
      · rw [List.filterMap_cons, if_pos hc]
        exact List.Sublist.trans ih (List.sublist_cons_self a.1 (l.map Prod.fst))
      · rw [List.filterMap_cons, if_neg hc, List.map_cons, List.map_cons]
        exact List.Sublist.cons₂ a.1 ih

/-- Every entry of `create_schematic` is the `mkLevel` record of a walked
non-hidden directory. -/
theorem mem_create_schematic (parent : List String) (t : DirTree)
    (parsers : List (String × ParserKind)) (e : List String × Level)
    (h : e ∈ create_schematic parent t parsers) :
    ∃ fs, (e.1, fs) ∈ walk parent t ∧
      e.2 = mkLevel (parent ++ [t.name]) parsers e.1 fs := by
  obtain ⟨a, ha, hfa⟩ := List.mem_filterMap.mp h
  by_cases hc : hiddenName (basename a.1) = true
  · rw [if_pos hc] at hfa; cases hfa
  · rw [if_neg hc] at hfa
    have hfa2 : (a.1, mkLevel (parent ++ [t.name]) parsers a.1 a.2) = e :=
      Option.some.inj hfa
    refine ⟨a.2, ?_, ?_⟩
    · rw [← hfa2]
      simpa using ha
    · rw [← hfa2]

/-- C5 counterexample: with root directory `srv/b` (whose parent base
name is `srv`) and nested directories `srv` and `srv/c` inside it, the
level `srv/b/srv/c` is NOT the root and yet has `parent_id = none`,
because the source compares only BASE names: the parent of `srv/b/srv/c`
is `srv/b/srv`, whose base name `srv` equals the base name of the root
directory's parent `srv`.  Its parent chain therefore stops immediately
instead of reaching the root in two hops. -/
theorem c5_parent_none_counterexample :
    (create_schematic ["srv"] (.mk "b" [] [.mk "srv" [] [.mk "c" [] []]])
        default_parsers).map (fun e => (e.1, e.2.parent_id)) =
      [(["srv", "b"], none), (["srv", "b", "srv"], some ["srv", "b"]),
       (["srv", "b", "srv", "c"], none)] := by
  decide

/-- C5 amended: in every schematic, the first level is the root directory
itself with `parent_id = none`; a level's `parent_id` is `none` exactly
when the base name of its parent directory equals the base name of the
root's parent directory (so the root always qualifies, but so does any
deeper directory whose parent happens to carry that base name), and
otherwise it is the immediate parent directory's path, one segment
shorter — hence following `parent_id` strictly shortens the path and can
never cycle, terminating within the directory's depth.  On any real
directory tree (pairwise distinct sibling names) no two levels share an
id. -/
theorem c5_parent_id_rule (parent : List String) (t : DirTree)
    (parsers : List (String × ParserKind))
    (hroot : hiddenName t.name = false) (hd : distinctNames t = true) :
    ((create_schematic parent t parsers).head?.map (fun e => (e.1, e.2.parent_id)) =
      some (parent ++ [t.name], none)) ∧
    (∀ e ∈ create_schematic parent t parsers,
      (e.2.parent_id = none ↔ basename e.1.dropLast = basename parent) ∧
      ∀ p, e.2.parent_id = some p → p = e.1.dropLast ∧ p.length + 1 = e.1.length) ∧
    ((create_schematic parent t parsers).map Prod.fst).Nodup := by
  refine ⟨?_, ?_, ?_⟩
  · cases t with
    | mk n files subs =>
        have hw : create_schematic parent (.mk n files subs) parsers =
            (parent ++ [n], mkLevel (parent ++ [n]) parsers (parent ++ [n]) files) ::
              (walkList (parent ++ [n]) subs).filterMap (fun e =>
                if hiddenName (basename e.1) then none
                else some (e.1, mkLevel (parent ++ [n]) parsers e.1 e.2)) := by
          unfold create_schematic
          rw [show walk parent (.mk n files subs) =
                (parent ++ [n], files) :: walkList (parent ++ [n]) subs from rfl]
          rw [List.filterMap_cons]
          rw [basename_concat]
          rw [show DirTree.name (.mk n files subs) = n from rfl] at hroot
          rw [hroot]
          rfl
        rw [hw]
        have hpn : (mkLevel (parent ++ [n]) parsers (parent ++ [n]) files).parent_id =
            none := by
          unfold mkLevel
          rw [List.dropLast_concat]
          simp
        simp [hpn, DirTree.name]
  · intro e he
    obtain ⟨fs, hw, hlvl⟩ := mem_create_schematic parent t parsers e he
    have hdag : (parent ++ [t.name]).dropLast = parent := List.dropLast_concat
    constructor
    · rw [hlvl]
      unfold mkLevel
      rw [hdag]
      by_cases hb : basename e.1.dropLast = basename parent
      · simp [hb]
      · simp [hb]
    · intro p hp
      rw [hlvl] at hp
      unfold mkLevel at hp
      rw [hdag] at hp
      by_cases hb : basename e.1.dropLast = basename parent
      · rw [if_neg (by simpa using hb)] at hp
        cases hp
      · rw [if_pos (by simpa using hb)] at hp
        have hpe : p = e.1.dropLast := by injection hp with h2; exact h2.symm
        have hlen : parent.length + 1 ≤ e.1.length := by
          have := List.IsPrefix.length_le (walk_path_extends parent t e.1 fs hw)
          simpa using this
        refine ⟨hpe, ?_⟩
        rw [hpe, List.length_dropLast]
        omega
  · exact List.Nodup.sublist
      (create_schematic_fst_sublist (parent ++ [t.name]) parsers (walk parent t))
      (walk_fst_nodup parent t hd)

/-- C5 witness: the amended characterisation applied to a concrete
well-formed two-directory tree. -/
theorem c5_parent_id_rule_witness :
    hiddenName (DirTree.name (.mk "d" [] [.mk "g" [] []])) = false ∧
    ((create_schematic ["home"] (.mk "d" [] [.mk "g" [] []])
        default_parsers).map Prod.fst).Nodup :=
  ⟨by decide,
   (c5_parent_id_rule ["home"] (.mk "d" [] [.mk "g" [] []]) default_parsers
     (by decide) (by decide)).2.2⟩
